import Mathlib

/-!
Shallow embedding of the tool-call dispatch and transport core of the
mcp-wasm repository, together with proofs about the claims of its
specification.

The file models, from the TypeScript source:

* the `BrowserTransport` class defined at `src/web/browser-transport.ts`
  lines 216-403 (the `Map`-based implementation; namespace `TransportV3`);
* the `BrowserTransport` class defined at the same file, lines 57-215
  (the `localStorage`-based implementation with a try/catch in `send`;
  namespace `TransportV2`);
* the tool handlers registered in `src/web/server.ts` (`serverCalculate`,
  `serverStorageSet`, `serverStorageGet`, `serverStorageResource`);
* the calculate handler of `src/web/main.ts` (`mainCalculate`);
* the tool-call extractor `LLMHandler.parseToolCalls` (regex
  `<tool>(.*?)</tool>\s*<params>(.*?)</params>/gs` plus `JSON.parse`).

Modelling conventions:

* JavaScript numbers are modelled as `Rat` (every finite double is a
  rational; the arithmetic the claims exercise — integer additions,
  subtractions, multiplications and exact divisions — is exact in double
  precision, where `Rat` and double semantics agree).  `NaN` produced by
  arithmetic on `undefined` operands is modelled as `none` in
  `Option Rat` where the source can produce it.
* a thrown JavaScript `Error` is modelled as `Except.error` carrying a
  `ThrownError` constructor; `ThrownError.message` reproduces the exact
  message string of the corresponding `throw` site.
* `undefined` fields of duck-typed parameter objects are modelled as
  `none`; JavaScript falsiness of the values the code actually passes
  (strings, numbers, `undefined`) is modelled by `jsFalsy` / `jsFalsyNum`.
* a JavaScript `Map` is modelled as an association list (insertion order
  preserved, `set` overwrites in place).
-/

deriving instance DecidableEq for Except

/-- A content item of a result payload: the source builds objects such as
`{ type: "text", text: ... }` (tool results) and `{ uri, text }` (the
resource result of the transport at lines 57-215).  Fields that a given
construction site omits default to `""`. -/
structure ContentItem where
  type : String := ""
  text : String := ""
  uri : String := ""
deriving Repr, DecidableEq

/-- A result object `{ contents: [...] }` as built by the transport at
lines 216-403 and by the server handlers. -/
structure RespResult where
  contents : List ContentItem
deriving Repr, DecidableEq

/-- A JSON-RPC error object `{ code, message }`. -/
structure ErrObj where
  code : Int
  message : String
deriving Repr, DecidableEq

/-- A JSON-RPC response as built by the transport at lines 216-403:
`{ jsonrpc: "2.0", id, result }` on success (errors are thrown, not
returned). -/
structure JSONRPCResponse where
  jsonrpc : String := "2.0"
  id : Int
  result : Option RespResult := none
  error : Option ErrObj := none
deriving Repr, DecidableEq

/-- Every distinct `throw new Error(...)` site of the modelled code, as a
tagged error kind.  `ThrownError.message` recovers the exact thrown
message string. -/
inductive ThrownError where
  | transportNotConnected
  | unknownMethod (m : String)
  | invalidMethod
  | divisionByZero
  | invalidParams
  | invalidOperation
  | keyRequired
  | keyNotFound
  | unknownTool
  | unknownToolNamed (name : String)
  | invalidResource
  | missingKeyParameter
  | unknownOperation (op : String)
deriving Repr, DecidableEq

/-- The exact message string of each `throw new Error(...)` site. -/
def ThrownError.message : ThrownError → String
  | .transportNotConnected => "Transport not connected"
  | .unknownMethod m => "Unknown method: " ++ m
  | .invalidMethod => "Invalid method"
  | .divisionByZero => "Division by zero"
  | .invalidParams => "Invalid params"
  | .invalidOperation => "Invalid operation"
  | .keyRequired => "Key is required"
  | .keyNotFound => "Key not found"
  | .unknownTool => "Unknown tool"
  | .unknownToolNamed n => "Unknown tool: " ++ n
  | .invalidResource => "Invalid resource"
  | .missingKeyParameter => "Missing key parameter"
  | .unknownOperation op => "Unknown operation: " ++ op

/-- The fields the handlers destructure out of the inner `params` object
of a message (`operation`, `a`, `b` for `calculate`; `key`, `value` for
the storage tools).  A field absent from the request is `none`
(JavaScript `undefined`). -/
structure ToolParams where
  operation : Option String := none
  a : Option Rat := none
  b : Option Rat := none
  key : Option String := none
  value : Option String := none
deriving Repr, DecidableEq

/-- The outer `params` object of a message.  The tool and resource
handlers of the transport at lines 216-403 destructure `{ name, params }`;
the resource handler of the transport at lines 57-215 destructures
`{ uri, key }`. -/
structure MsgParams where
  name : String := ""
  params : ToolParams := {}
  uri : String := ""
  key : Option String := none
deriving Repr, DecidableEq

/-- A JSON-RPC request message `{ jsonrpc: "2.0", id, method, params }`. -/
structure JSONRPCMessage where
  jsonrpc : String := "2.0"
  id : Int
  method : String
  params : MsgParams := {}
deriving Repr, DecidableEq

/-- JavaScript falsiness of a possibly-`undefined` string value:
`!x` is true exactly for `undefined` and `""`. -/
def jsFalsy (o : Option String) : Bool := o.getD "" == ""

/-- JavaScript falsiness of a possibly-`undefined` number value:
`!x` is true for `undefined` (`NaN` after coercion) and `0`.  (`NaN`
itself cannot reach the modelled guards: the requests the claims range
over carry rational numbers or omit the field.) -/
def jsFalsyNum (o : Option Rat) : Bool :=
  match o with
  | none => true
  | some q => q == 0

/-- Rendering of a JavaScript number result by `Number.prototype.toString`.
On integer-valued doubles — the only values the claims' payload equalities
exercise — JavaScript prints the plain decimal integer, which is what the
`Rat`/`Int` rendering below produces. -/
def numToString (q : Rat) : String :=
  if q.den = 1 then toString q.num else toString q

/-- Rendering of a possibly-`NaN` number (`undefined` arithmetic in the
transport at lines 57-215 yields `NaN`, printed `"NaN"`). -/
def jnumToString (o : Option Rat) : String :=
  match o with
  | none => "NaN"
  | some q => numToString q

/-- Helper for `{ type: 'text', text: t }` content items. -/
def textItem (t : String) : ContentItem := { type := "text", text := t }

namespace TransportV3

/-- The storage `Map<string, any>` of the transport at lines 216-403,
as an association list.  The stored value is `Option String` because
`storage.set(key, value)` stores whatever `value` destructured to,
including `undefined`. -/
def Store := List (String × Option String)

instance : DecidableEq Store :=
  inferInstanceAs (DecidableEq (List (String × Option String)))

/-- JavaScript `Map.prototype.set`: overwrites an existing key in place,
otherwise appends in insertion order. -/
def storeSet (sto : Store) (k : String) (v : Option String) : Store :=
  match sto with
  | [] => [(k, v)]
  | (k', v') :: rest => if k' = k then (k, v) :: rest else (k', v') :: storeSet rest k v

/-- JavaScript `Map.prototype.get` followed by the `=== undefined` test:
a missing key and a stored `undefined` value both read back as
`undefined`, so the lookup is flattened. -/
def storeGet (sto : Store) (k : String) : Option String :=
  match sto with
  | [] => none
  | (k', v') :: rest => if k' = k then v' else storeGet rest k

/-- State of a `BrowserTransport` instance (lines 216-403): the
`started` and `isTestMode` flags, the storage map, and `lastResponse`.
The callback list is not carried: `send` hands every produced response
unchanged to each callback, so the claims about delivered responses are
claims about the produced response. -/
structure State where
  started : Bool
  isTestMode : Bool
  storage : Store
  lastResponse : Option JSONRPCResponse := none
deriving DecidableEq

/-- The `calculate` branch of `handleToolMessage` (lines 307-338):
the `operation === 'divide' && b === 0` guard, then the
`!operation || !a || !b` falsiness guard, then the `switch` on
`operation`.  After the falsiness guard all three fields are present and
nonzero, so the `getD` defaults are never observed. -/
def handleCalculate (tp : ToolParams) (msgId : Int) : Except ThrownError JSONRPCResponse :=
  if tp.operation == some "divide" && tp.b == some 0 then
    .error .divisionByZero
  else if jsFalsy tp.operation || jsFalsyNum tp.a || jsFalsyNum tp.b then
    .error .invalidParams
  else
    let op := tp.operation.getD ""
    let a := tp.a.getD 0
    let b := tp.b.getD 0
    if op = "add" then
      .ok { id := msgId, result := some ⟨[textItem (numToString (a + b))]⟩ }
    else if op = "subtract" then
      .ok { id := msgId, result := some ⟨[textItem (numToString (a - b))]⟩ }
    else if op = "multiply" then
      .ok { id := msgId, result := some ⟨[textItem (numToString (a * b))]⟩ }
    else if op = "divide" then
      .ok { id := msgId, result := some ⟨[textItem (numToString (a / b))]⟩ }
    else
      .error .invalidOperation

/-- `handleToolMessage` (lines 298-374): the `method !== 'tool'` guard,
then the `switch` on the tool name, covering `calculate`, `storage-set`,
`storage-get` and the `Unknown tool` default.  Returns the full response
together with the storage after the call (only `storage-set` mutates). -/
def handleToolMessage (sto : Store) (m : JSONRPCMessage) :
    Except ThrownError (JSONRPCResponse × Store) :=
  if m.method ≠ "tool" then .error .invalidMethod
  else
    let toolName := m.params.name
    let tp := m.params.params
    if toolName = "calculate" then
      (handleCalculate tp m.id).map (fun r => (r, sto))
    else if toolName = "storage-set" then
      if jsFalsy tp.key then .error .keyRequired
      else
        .ok ({ id := m.id, result := some ⟨[textItem "Value stored successfully"]⟩ },
             storeSet sto (tp.key.getD "") tp.value)
    else if toolName = "storage-get" then
      if jsFalsy tp.key then .error .keyRequired
      else
        match storeGet sto (tp.key.getD "") with
        | none => .error .keyNotFound
        | some v => .ok ({ id := m.id, result := some ⟨[textItem v]⟩ }, sto)
    else .error .unknownTool

/-- `handleResourceMessage` (lines 376-395): `switch` on
`message.params.name`, with the `storage-get` case and the
`Invalid resource` default.  Returns the result object `send` wraps. -/
def handleResourceMessage (sto : Store) (m : JSONRPCMessage) :
    Except ThrownError RespResult :=
  let name := m.params.name
  let tp := m.params.params
  if name = "storage-get" then
    if jsFalsy tp.key then .error .keyRequired
    else
      match storeGet sto (tp.key.getD "") with
      | none => .error .keyNotFound
      | some v => .ok ⟨[textItem v]⟩
  else .error .invalidResource

/-- `send` (lines 259-292): the
`if (!this.started && !this.isTestMode) throw` guard, the dispatch on
`method` over `tool` / `test` / `resource`, and the final
`throw Unknown method`.  On success the response is recorded in
`lastResponse` and handed to every callback; a thrown error propagates
out of `send` with the state as it was at the throw site. -/
def send (st : State) (m : JSONRPCMessage) :
    Except ThrownError JSONRPCResponse × State :=
  if !st.started && !st.isTestMode then
    (.error .transportNotConnected, st)
  else if m.method = "tool" then
    match handleToolMessage st.storage m with
    | .error e => (.error e, st)
    | .ok (resp, sto') =>
        (.ok resp, { st with storage := sto', lastResponse := some resp })
  else if m.method = "test" then
    let resp : JSONRPCResponse :=
      { id := m.id, result := some ⟨[textItem "Test message received"]⟩ }
    (.ok resp, { st with lastResponse := some resp })
  else if m.method = "resource" then
    match handleResourceMessage st.storage m with
    | .error e => (.error e, st)
    | .ok res =>
        let resp : JSONRPCResponse := { id := m.id, result := some res }
        (.ok resp, { st with lastResponse := some resp })
  else
    (.error (.unknownMethod m.method), st)

/-- `stop` (lines 235-239): resets the `started` flag (and clears the
callback list, which the state does not carry). -/
def stop (st : State) : State := { st with started := false }

end TransportV3

namespace ServerTs

/-- The zod-validated `operation` enum of the calculator schema in
`src/web/server.ts`. -/
inductive CalcOp where
  | add
  | subtract
  | multiply
  | divide
deriving Repr, DecidableEq

/-- The shared `storage` `Map<string, string>` of `src/web/server.ts`,
as an association list (values are strings by the zod schema). -/
def SStore := List (String × String)

instance : DecidableEq SStore :=
  inferInstanceAs (DecidableEq (List (String × String)))

/-- `Map.set` on the server storage. -/
def sSet (sto : SStore) (k v : String) : SStore :=
  match sto with
  | [] => [(k, v)]
  | (k', v') :: rest => if k' = k then (k, v) :: rest else (k', v') :: sSet rest k v

/-- `Map.get` on the server storage (`undefined` is `none`). -/
def sGet (sto : SStore) (k : String) : Option String :=
  match sto with
  | [] => none
  | (k', v') :: rest => if k' = k then some v' else sGet rest k

/-- The `calculate` tool handler of `src/web/server.ts` lines 28-48:
`switch` on the zod-validated operation, with the
`if (params.b === 0) throw new Error('Division by zero')` guard in the
`divide` case. -/
def serverCalculate (op : CalcOp) (a b : Rat) : Except ThrownError RespResult :=
  match op with
  | .add => .ok ⟨[textItem (numToString (a + b))]⟩
  | .subtract => .ok ⟨[textItem (numToString (a - b))]⟩
  | .multiply => .ok ⟨[textItem (numToString (a * b))]⟩
  | .divide =>
      if b = 0 then .error .divisionByZero
      else .ok ⟨[textItem (numToString (a / b))]⟩

/-- The `storage-set` tool handler of `src/web/server.ts` lines 51-56. -/
def serverStorageSet (sto : SStore) (k v : String) : RespResult × SStore :=
  (⟨[textItem "Value stored successfully"]⟩, sSet sto k v)

/-- The `storage-get` tool handler of `src/web/server.ts` lines 58-66:
`const value = storage.get(key); if (!value) throw new Error('Key not
found')` — the falsiness test fires on a missing key and on a stored
empty string alike. -/
def serverStorageGet (sto : SStore) (k : String) : Except ThrownError RespResult :=
  let value := sGet sto k
  if jsFalsy value then .error .keyNotFound
  else .ok ⟨[textItem (value.getD "")]⟩

/-- The `storage` resource handler of `src/web/server.ts` lines 79-95:
a missing `key` template variable throws `Missing key parameter`; an
absent (or empty-string) stored value is returned as a *successful*
text payload `"Key not found"`. -/
def serverStorageResource (sto : SStore) (key : Option String) :
    Except ThrownError RespResult :=
  if jsFalsy key then .error .missingKeyParameter
  else
    let value := sGet sto (key.getD "")
    if jsFalsy value then .ok ⟨[textItem "Key not found"]⟩
    else .ok ⟨[textItem (value.getD "")]⟩

end ServerTs

/-- The `calculate` branch of the message handler in `src/web/main.ts`
lines 333-374: `switch` on the (unvalidated) `operation` string, with
the `b === 0` guard in the `divide` case and the
``throw new Error(`Unknown operation: ...`)`` default. -/
def mainCalculate (operation : String) (a b : Rat) : Except ThrownError RespResult :=
  if operation = "add" then .ok ⟨[textItem (numToString (a + b))]⟩
  else if operation = "subtract" then .ok ⟨[textItem (numToString (a - b))]⟩
  else if operation = "multiply" then .ok ⟨[textItem (numToString (a * b))]⟩
  else if operation = "divide" then
    if b = 0 then .error .divisionByZero
    else .ok ⟨[textItem (numToString (a / b))]⟩
  else .error (.unknownOperation operation)

namespace TransportV2

/-- A result object of the transport at lines 57-215: tool results are
`{ content: [...] }` (line 186), resource results are
`{ contents: [...] }` (line 208). -/
inductive ResultObj where
  | content (items : List ContentItem)
  | contents (items : List ContentItem)
deriving Repr, DecidableEq

/-- A response of the transport at lines 57-215: success responses carry
`result`, the catch block builds `{ jsonrpc, id, error: { code: -32000,
message } }`. -/
structure Response where
  jsonrpc : String := "2.0"
  id : Int
  result : Option ResultObj := none
  error : Option ErrObj := none
deriving Repr, DecidableEq

/-- What `send` of the transport at lines 57-215 hands to the callbacks:
in test mode the unmodified request message, otherwise a response. -/
inductive Delivered where
  | passthrough (m : JSONRPCMessage)
  | response (r : Response)
deriving Repr, DecidableEq

/-- The `localStorage` the transport at lines 57-215 uses for storage
(string keys and values; `getItem` returns `null`, modelled `none`, for
a missing key). -/
def LS := List (String × String)

instance : DecidableEq LS :=
  inferInstanceAs (DecidableEq (List (String × String)))

/-- `localStorage.setItem`. -/
def lsSet (sto : LS) (k v : String) : LS :=
  match sto with
  | [] => [(k, v)]
  | (k', v') :: rest => if k' = k then (k, v) :: rest else (k', v') :: lsSet rest k v

/-- `localStorage.getItem`. -/
def lsGet (sto : LS) (k : String) : Option String :=
  match sto with
  | [] => none
  | (k', v') :: rest => if k' = k then some v' else lsGet rest k

/-- JavaScript string coercion applied by `localStorage.setItem` /
`getItem` to a possibly-`undefined` argument: `undefined` coerces to the
string `"undefined"`. -/
def jsStringCoerce (o : Option String) : String := o.getD "undefined"

/-- State of a `BrowserTransport` instance (lines 57-215). -/
structure State where
  started : Bool
  isTestMode : Bool
  localStorage : LS
deriving DecidableEq

/-- `undefined`-propagating binary arithmetic of the `calculate` branch
at lines 166-189: an `undefined` operand makes the double result `NaN`
(`none`). -/
def jBin (f : Rat → Rat → Rat) (a b : Option Rat) : Option Rat :=
  match a, b with
  | some x, some y => some (f x y)
  | _, _ => none

/-- `handleToolMessage` of the transport at lines 57-215 (lines 163-200):
tools `calculate` and `set-storage`, with the
``throw new Error(`Unknown tool: ...`)`` default.  Returns the result
object and the `localStorage` after the call. -/
def handleToolMessage (sto : LS) (m : JSONRPCMessage) :
    Except ThrownError (ResultObj × LS) :=
  let name := m.params.name
  let tp := m.params.params
  if name = "calculate" then
    let op := tp.operation.getD ""
    if op = "add" then
      .ok (.content [textItem (jnumToString (jBin (· + ·) tp.a tp.b))], sto)
    else if op = "subtract" then
      .ok (.content [textItem (jnumToString (jBin (· - ·) tp.a tp.b))], sto)
    else if op = "multiply" then
      .ok (.content [textItem (jnumToString (jBin (· * ·) tp.a tp.b))], sto)
    else if op = "divide" then
      if tp.b == some 0 then .error .divisionByZero
      else .ok (.content [textItem (jnumToString (jBin (· / ·) tp.a tp.b))], sto)
    else .error .invalidOperation
  else if name = "set-storage" then
    .ok (.content [textItem "Value stored successfully"],
         lsSet sto (jsStringCoerce tp.key) (jsStringCoerce tp.value))
  else .error (.unknownToolNamed name)

/-- `handleResourceMessage` of the transport at lines 57-215 (lines
202-214): destructures `{ uri, key }` from `message.params`, reads
`localStorage`, and throws `Key not found` on a falsy value. -/
def handleResourceMessage (sto : LS) (m : JSONRPCMessage) :
    Except ThrownError ResultObj :=
  let value := lsGet sto (jsStringCoerce m.params.key)
  if jsFalsy value then .error .keyNotFound
  else .ok (.contents [{ uri := m.params.uri, text := value.getD "" }])

/-- `send` of the transport at lines 57-215 (lines 106-154): the
`!started` guard throws; test mode passes the request message through to
the callbacks; otherwise the dispatch on `method` runs inside a
`try`/`catch` that converts any thrown error into an error response
`{ code: -32000, message }` delivered to the callbacks.  The value paired
with the new state is what the callbacks receive. -/
def send (st : State) (m : JSONRPCMessage) :
    Except ThrownError (Delivered × State) :=
  if !st.started then .error .transportNotConnected
  else if st.isTestMode then .ok (.passthrough m, st)
  else
    let attempt : Except ThrownError (Response × LS) :=
      if m.method = "tool" then
        (handleToolMessage st.localStorage m).map
          (fun p => ({ id := m.id, result := some p.1 }, p.2))
      else if m.method = "resource" then
        (handleResourceMessage st.localStorage m).map
          (fun r => ({ id := m.id, result := some r }, st.localStorage))
      else .error (.unknownMethod m.method)
    match attempt with
    | .ok (resp, sto') => .ok (.response resp, { st with localStorage := sto' })
    | .error e =>
        .ok (.response { id := m.id, error := some ⟨-32000, e.message⟩ }, st)

end TransportV2

namespace Extractor

/-- Boolean prefix test on character lists (the literal-matching step of
the regex engine). -/
def pfx : List Char → List Char → Bool
  | [], _ => true
  | _ :: _, [] => false
  | a :: as, b :: bs => a == b && pfx as bs

/-- Boolean substring-occurrence test: `pat` occurs in the list at some
position. -/
def hasSub (pat : List Char) : List Char → Bool
  | [] => pfx pat []
  | c :: cs => pfx pat (c :: cs) || hasSub pat cs

/-- Split at the first occurrence of `sep`: returns
`(before, after)` with the input equal to `before ++ sep ++ after`, or
`none` when `sep` does not occur.  This is the semantics of a non-greedy
`(.*?)` followed by the literal `sep` (with backtracking handled by the
callers). -/
def splitOnFirst (sep : List Char) : List Char → Option (List Char × List Char)
  | [] => none
  | c :: cs =>
    if pfx sep (c :: cs) then some ([], (c :: cs).drop sep.length)
    else
      match splitOnFirst sep cs with
      | some p => some (c :: p.1, p.2)
      | none => none

/-- The character class `\s` of the regex (ASCII part; the inputs the
claims range over use spaces, tabs and newlines). -/
def isWs (c : Char) : Bool :=
  c == ' ' || c == '\t' || c == '\n' || c == '\r' || c == '\x0b' || c == '\x0c'

/-- The literal fragments of the regex
`/<tool>(.*?)<\/tool>\s*<params>(.*?)<\/params>/gs`. -/
def pTool : List Char := "<tool>".toList

/-- The literal `</tool>`. -/
def pToolEnd : List Char := "</tool>".toList

/-- The literal `<params>`. -/
def pParams : List Char := "<params>".toList

/-- The literal `</params>`. -/
def pParamsEnd : List Char := "</params>".toList

/-- Matching of the regex tail `\s*<params>(.*?)<\/params>` at the text
position right after a candidate `</tool>`: the greedy `\s*` followed by
the literal `<` is equivalent to skipping the maximal whitespace run
(`<` is not in `\s`, so no backtracking position can succeed), then the
non-greedy capture runs to the first `</params>`.  Returns the raw
params capture and the rest of the text after the match. -/
def matchParams (s : List Char) : Option (List Char × List Char) :=
  let s' := s.dropWhile isWs
  if pfx pParams s' then splitOnFirst pParamsEnd (s'.drop pParams.length)
  else none

/-- A list passing the prefix test decomposes as the pattern followed by
the drop. -/
theorem pfx_decomp : ∀ {a l : List Char}, pfx a l = true → l = a ++ l.drop a.length := by
  intro a
  induction a with
  | nil => intro l _; simp
  | cons x xs ih =>
    intro l h
    cases l with
    | nil => simp [pfx] at h
    | cons c cs =>
      simp only [pfx, Bool.and_eq_true, beq_iff_eq] at h
      simp only [List.cons_append, List.length_cons, List.drop_succ_cons]
      rw [h.1]
      exact congrArg (fun t => c :: t) (ih h.2)

/-- The prefix test succeeds on the pattern followed by anything. -/
theorem pfx_self_append : ∀ (a b : List Char), pfx a (a ++ b) = true := by
  intro a
  induction a with
  | nil => intro b; simp [pfx]
  | cons x xs ih => intro b; simp [pfx, ih]

/-- A successful `splitOnFirst` decomposes its input around the
separator. -/
theorem splitOnFirst_sound {sep : List Char} :
    ∀ {s b a : List Char}, splitOnFirst sep s = some (b, a) → s = b ++ sep ++ a := by
  intro s
  induction s with
  | nil => intro b a h; simp [splitOnFirst] at h
  | cons c cs ih =>
    intro b a h
    by_cases hp : pfx sep (c :: cs) = true
    · simp only [splitOnFirst, hp, if_true, Option.some.injEq, Prod.mk.injEq] at h
      obtain ⟨hb, ha⟩ := h
      subst hb
      simp only [List.nil_append]
      rw [← ha]
      exact pfx_decomp hp
    · cases hsp : splitOnFirst sep cs with
      | none => simp [splitOnFirst, hp, hsp] at h
      | some p =>
        obtain ⟨b', a'⟩ := p
        simp only [splitOnFirst, hp, hsp] at h
        simp only [Bool.false_eq_true, if_false, Option.some.injEq, Prod.mk.injEq] at h
        obtain ⟨hb, ha⟩ := h
        subst hb
        subst ha
        have := ih hsp
        simp only [List.cons_append]
        rw [← this]

/-- Length bound used for termination of the backtracking matcher. -/
theorem splitOnFirst_length_lt {sep s b a : List Char}
    (h : splitOnFirst sep s = some (b, a)) (hsep : sep ≠ []) :
    a.length < s.length := by
  have hd := splitOnFirst_sound h
  have : s.length = b.length + sep.length + a.length := by
    rw [hd]; simp [List.length_append]; omega
  have hpos : 0 < sep.length := List.length_pos.mpr hsep
  omega

/-- Dropping a prefix satisfying a predicate never lengthens a list. -/
theorem dropWhile_length_le (p : Char → Bool) :
    ∀ l : List Char, (l.dropWhile p).length ≤ l.length := by
  intro l
  induction l with
  | nil => simp
  | cons c cs ih =>
    by_cases hc : p c = true
    · rw [List.dropWhile_cons_of_pos hc]
      exact Nat.le_succ_of_le ih
    · rw [List.dropWhile_cons_of_neg hc]

/-- Length bound for `matchParams`. -/
theorem matchParams_length_le {s j r : List Char}
    (h : matchParams s = some (j, r)) : r.length < s.length + 1 := by
  unfold matchParams at h
  by_cases hp : pfx pParams (s.dropWhile isWs) = true
  · simp only [hp, if_true] at h
    have hd := splitOnFirst_sound h
    have h1 : ((s.dropWhile isWs).drop pParams.length).length ≤ s.length := by
      calc ((s.dropWhile isWs).drop pParams.length).length
          ≤ (s.dropWhile isWs).length := by simp [List.length_drop]
        _ ≤ s.length := dropWhile_length_le _ _
    have h2 : ((s.dropWhile isWs).drop pParams.length).length
        = j.length + pParamsEnd.length + r.length := by
      rw [hd]; simp [List.length_append]; omega
    omega
  · simp [hp] at h

/-- Matching of the regex tail after `<tool>`: the non-greedy
`(.*?)<\/tool>` with full backtracking — the engine takes the earliest
`</tool>` occurrence whose continuation `\s*<params>(.*?)<\/params>`
matches, extending the capture past rejected occurrences (the dot-all
flag lets the capture contain `</tool>` itself).  Returns the raw name
capture, the raw params capture, and the rest of the text after the
whole match. -/
def matchToolTail (s : List Char) : Option (List Char × List Char × List Char) :=
  match hsp : splitOnFirst pToolEnd s with
  | none => none
  | some p =>
    match matchParams p.2 with
    | some q => some (p.1, q.1, q.2)
    | none =>
      match matchToolTail p.2 with
      | some r => some (p.1 ++ pToolEnd ++ r.1, r.2.1, r.2.2)
      | none => none
termination_by s.length
decreasing_by
  all_goals
    exact splitOnFirst_length_lt hsp (by decide)

/-- Length bound for the backtracking matcher: a successful match
consumes at least the `</tool>` separator. -/
theorem matchToolTail_length_lt :
    ∀ {s n j r : List Char}, matchToolTail s = some (n, j, r) → r.length < s.length := by
  suffices H : ∀ (L : Nat) (s : List Char), s.length ≤ L →
      ∀ {n j r : List Char}, matchToolTail s = some (n, j, r) → r.length < s.length by
    intro s n j r h
    exact H s.length s le_rfl h
  intro L
  induction L with
  | zero =>
    intro s hs n j r h
    have : s = [] := List.eq_nil_of_length_eq_zero (Nat.le_zero.mp hs)
    subst this
    rw [matchToolTail] at h
    simp [splitOnFirst] at h
  | succ L ih =>
    intro s hs n j r h
    rw [matchToolTail] at h
    split at h
    · exact absurd h (by simp)
    · rename_i p hsp
      have hlt : p.2.length < s.length := splitOnFirst_length_lt hsp (by decide)
      split at h
      · rename_i q hmp
        simp only [Option.some.injEq, Prod.mk.injEq] at h
        obtain ⟨_, _, hr⟩ := h
        subst hr
        have := matchParams_length_le hmp
        omega
      · rename_i hmp
        split at h
        · rename_i r' hmt
          obtain ⟨n', j', r''⟩ := r'
          simp only [Option.some.injEq, Prod.mk.injEq] at h
          obtain ⟨_, _, hr⟩ := h
          subst hr
          have := ih p.2 (by omega) hmt
          omega
        · exact absurd h (by simp)

/-- The repeated global scan of `regex.exec` over the text: at each
position the engine tries to start a match with the literal `<tool>`;
on failure it advances one character, on success it emits the two
captures and resumes right after the match. -/
def extractFrom (s : List Char) : List (List Char × List Char) :=
  match s with
  | [] => []
  | c :: cs =>
    if pfx pTool (c :: cs) then
      match hmt : matchToolTail ((c :: cs).drop pTool.length) with
      | some r => (r.1, r.2.1) :: extractFrom r.2.2
      | none => extractFrom cs
    else extractFrom cs
termination_by s.length
decreasing_by
  · exact Nat.lt_of_lt_of_le (matchToolTail_length_lt hmt)
      (by rw [List.length_drop]; omega)
  · simp only [List.length_cons]
    omega
  · simp only [List.length_cons]
    omega

/-- JavaScript `String.prototype.trim` applied to the raw name capture. -/
def jsTrim (l : List Char) : List Char :=
  ((l.dropWhile isWs).reverse.dropWhile isWs).reverse

end Extractor

namespace Json

/-- Parse tree of a JSON document, the result shape of `JSON.parse`.
Numbers are carried exactly as rationals (the model does not round to
double precision; the claims' inputs are small integers, on which the
two agree). -/
inductive JsonValue where
  | null : JsonValue
  | bool : Bool → JsonValue
  | num : Rat → JsonValue
  | str : String → JsonValue
  | arr : List JsonValue → JsonValue
  | obj : List (String × JsonValue) → JsonValue
deriving Repr

/-- JSON insignificant whitespace (RFC 8259: space, tab, line feed,
carriage return). -/
def isJsonWs (c : Char) : Bool :=
  c == ' ' || c == '\t' || c == '\n' || c == '\r'

/-- Skip insignificant whitespace. -/
def skipWs (l : List Char) : List Char := l.dropWhile isJsonWs

/-- The two-character escapes of JSON strings.  (`\uXXXX` escapes are
outside the model; an input using them fails to parse.) -/
def unescape (c : Char) : Option Char :=
  if c = '"' then some '"'
  else if c = '\\' then some '\\'
  else if c = '/' then some '/'
  else if c = 'n' then some '\n'
  else if c = 't' then some '\t'
  else if c = 'r' then some '\r'
  else if c = 'b' then some (Char.ofNat 8)
  else if c = 'f' then some (Char.ofNat 12)
  else none

/-- Parse the body of a JSON string after the opening quote; returns the
decoded characters and the rest after the closing quote.  Raw control
characters are rejected, as `JSON.parse` rejects them. -/
def parseStringBody : List Char → Option (List Char × List Char)
  | [] => none
  | c :: rest =>
    if c = '"' then some ([], rest)
    else if c = '\\' then
      match rest with
      | [] => none
      | e :: rest' =>
        match unescape e with
        | none => none
        | some d =>
          match parseStringBody rest' with
          | none => none
          | some (s, r) => some (d :: s, r)
    else if c.toNat < 32 then none
    else
      match parseStringBody rest with
      | none => none
      | some (s, r) => some (c :: s, r)

/-- Decimal digits to a natural number. -/
def digitsToNat (l : List Char) : Nat :=
  l.foldl (fun n c => n * 10 + (c.toNat - 48)) 0

/-- Split a leading digit run. -/
def takeDigits (l : List Char) : List Char × List Char :=
  (l.takeWhile Char.isDigit, l.dropWhile Char.isDigit)

/-- Parse a JSON number: optional minus, an integer part without
superfluous leading zeros, optional fraction, optional exponent; the
exact rational value is returned. -/
def parseNumber (l : List Char) : Option (Rat × List Char) :=
  let (neg, l₁) := match l with
    | '-' :: r => (true, r)
    | _ => (false, l)
  match takeDigits l₁ with
  | ([], _) => none
  | (ds, r₁) =>
    if 1 < ds.length ∧ ds.head? = some '0' then none
    else
      let ipart : Rat := (digitsToNat ds : Nat)
      let (mant, r₂) : Rat × List Char := match r₁ with
        | '.' :: r => match takeDigits r with
          | ([], _) => (ipart, '.' :: r)
          | (fs, r') => (ipart + (digitsToNat fs : Rat) / ((10 : Rat) ^ fs.length), r')
        | _ => (ipart, r₁)
      -- a '.' not followed by a digit is a syntax error
      if r₂.head? = some '.' then none
      else
        let (val, r₃) : Option Rat × List Char := match r₂ with
          | 'e' :: r => match r with
            | '-' :: r' => match takeDigits r' with
              | ([], _) => (none, r₂)
              | (es, r'') => (some (mant / (10 : Rat) ^ digitsToNat es), r'')
            | '+' :: r' => match takeDigits r' with
              | ([], _) => (none, r₂)
              | (es, r'') => (some (mant * (10 : Rat) ^ digitsToNat es), r'')
            | _ => match takeDigits r with
              | ([], _) => (none, r₂)
              | (es, r'') => (some (mant * (10 : Rat) ^ digitsToNat es), r'')
          | 'E' :: r => match r with
            | '-' :: r' => match takeDigits r' with
              | ([], _) => (none, r₂)
              | (es, r'') => (some (mant / (10 : Rat) ^ digitsToNat es), r'')
            | '+' :: r' => match takeDigits r' with
              | ([], _) => (none, r₂)
              | (es, r'') => (some (mant * (10 : Rat) ^ digitsToNat es), r'')
            | _ => match takeDigits r with
              | ([], _) => (none, r₂)
              | (es, r'') => (some (mant * (10 : Rat) ^ digitsToNat es), r'')
          | _ => (some mant, r₂)
        match val with
        | none => none
        | some v => some (if neg then -v else v, r₃)

mutual

/-- Parse one JSON value (fuelled recursive descent; the fuel bounds the
nesting depth, which is at most the input length). -/
def parseVal : Nat → List Char → Option (JsonValue × List Char)
  | 0, _ => none
  | fuel + 1, l =>
    match skipWs l with
    | [] => none
    | c :: rest =>
      if c = '{' then
        match skipWs rest with
        | '}' :: r => some (.obj [], r)
        | r => match parseMembers fuel r with
          | none => none
          | some (ms, r') => some (.obj ms, r')
      else if c = '[' then
        match skipWs rest with
        | ']' :: r => some (.arr [], r)
        | r => match parseElems fuel r with
          | none => none
          | some (xs, r') => some (.arr xs, r')
      else if c = '"' then
        match parseStringBody rest with
        | none => none
        | some (s, r) => some (.str (String.mk s), r)
      else if c = 't' then
        match rest with
        | 'r' :: 'u' :: 'e' :: r => some (.bool true, r)
        | _ => none
      else if c = 'f' then
        match rest with
        | 'a' :: 'l' :: 's' :: 'e' :: r => some (.bool false, r)
        | _ => none
      else if c = 'n' then
        match rest with
        | 'u' :: 'l' :: 'l' :: r => some (.null, r)
        | _ => none
      else
        match parseNumber (c :: rest) with
        | none => none
        | some (q, r) => some (.num q, r)

/-- Parse a nonempty member list of a JSON object, up to and including
the closing brace. -/
def parseMembers : Nat → List Char → Option (List (String × JsonValue) × List Char)
  | 0, _ => none
  | fuel + 1, l =>
    match skipWs l with
    | '"' :: rest =>
      match parseStringBody rest with
      | none => none
      | some (k, r₁) =>
        match skipWs r₁ with
        | ':' :: r₂ =>
          match parseVal fuel r₂ with
          | none => none
          | some (v, r₃) =>
            match skipWs r₃ with
            | ',' :: r₄ =>
              match parseMembers fuel r₄ with
              | none => none
              | some (ms, r₅) => some ((String.mk k, v) :: ms, r₅)
            | '}' :: r₄ => some ([(String.mk k, v)], r₄)
            | _ => none
        | _ => none
    | _ => none

/-- Parse a nonempty element list of a JSON array, up to and including
the closing bracket. -/
def parseElems : Nat → List Char → Option (List JsonValue × List Char)
  | 0, _ => none
  | fuel + 1, l =>
    match parseVal fuel l with
    | none => none
    | some (v, r₁) =>
      match skipWs r₁ with
      | ',' :: r₂ =>
        match parseElems fuel r₂ with
        | none => none
        | some (xs, r₃) => some (v :: xs, r₃)
      | ']' :: r₂ => some ([v], r₂)
      | _ => none

end

/-- Model of `JSON.parse`: parse one value surrounded by optional
whitespace; any leftover input is a syntax error. -/
def jsonParse (s : String) : Option JsonValue :=
  match parseVal (s.toList.length + 1) s.toList with
  | none => none
  | some (v, rest) => if skipWs rest = [] then some v else none

end Json

namespace Extractor

/-- A tool-call directive as produced by `LLMHandler.parseToolCalls`:
the trimmed tool name and the parsed params object. -/
structure ToolCall where
  name : String
  params : Json.JsonValue
deriving Repr

/-- `LLMHandler.parseToolCalls` (`src/unnamed/part_005` lines 75-92):
run the global regex over the text; for each match, trim the name
capture and `JSON.parse` the params capture; a match whose params fail
to parse is skipped (the catch logs and continues). -/
def parseToolCalls (text : String) : List ToolCall :=
  (extractFrom text.toList).filterMap (fun m =>
    match Json.jsonParse (String.mk m.2) with
    | some v => some ⟨String.mk (jsTrim m.1), v⟩
    | none => none)

/-- The single, non-global regex match of `LLMHandler.processUserInput`
(`src/web/llm.ts` line 109): `content.match(re)` without the `g` flag
yields the leftmost match of the same directive pattern — the head of
the global scan. -/
def llmToolMatch (content : String) : Option (List Char × List Char) :=
  (extractFrom content.toList).head?

/-- The directive extraction of `LLMHandler.processUserInput`
(`src/web/llm.ts` lines 109-125): at most one directive is produced —
no match, or a `JSON.parse` failure on its params, makes the function
return early (after an apology message) with nothing dispatched; the
dispatched name is the raw first capture (this path does not trim). -/
def llmExtract (content : String) : Option ToolCall :=
  match llmToolMatch content with
  | none => none
  | some m =>
    match Json.jsonParse (String.mk m.2) with
    | none => none
    | some v => some ⟨String.mk m.1, v⟩

end Extractor

/-- A `calculate` tool request. -/
def calcMsg (i : Int) (op : Option String) (a b : Option Rat) : JSONRPCMessage :=
  { id := i, method := "tool",
    params := { name := "calculate", params := { operation := op, a := a, b := b } } }

/-- A `storage-set` tool request. -/
def storageSetMsg (i : Int) (key value : Option String) : JSONRPCMessage :=
  { id := i, method := "tool",
    params := { name := "storage-set", params := { key := key, value := value } } }

/-- A `storage-get` tool request. -/
def storageGetToolMsg (i : Int) (key : Option String) : JSONRPCMessage :=
  { id := i, method := "tool",
    params := { name := "storage-get", params := { key := key } } }

/-- A `storage-get` resource request. -/
def storageGetResMsg (i : Int) (key : Option String) : JSONRPCMessage :=
  { id := i, method := "resource",
    params := { name := "storage-get", params := { key := key } } }

/-- Every successful result of the third transport's `calculate` branch
carries the request id. -/
theorem handleCalculate_id {tp : ToolParams} {i : Int} {r : JSONRPCResponse}
    (h : TransportV3.handleCalculate tp i = .ok r) : r.id = i := by
  simp only [TransportV3.handleCalculate] at h
  repeat' split at h
  all_goals first
    | (injection h with h2
       rw [← h2])
    | simp_all

/-- Every successful response of the third transport's tool handler
carries the request id. -/
theorem handleToolMessage_id {sto : TransportV3.Store} {m : JSONRPCMessage}
    {r : JSONRPCResponse} {sto' : TransportV3.Store}
    (h : TransportV3.handleToolMessage sto m = .ok (r, sto')) : r.id = m.id := by
  simp only [TransportV3.handleToolMessage] at h
  repeat' split at h
  all_goals first
    | (simp only [Except.ok.injEq, Prod.mk.injEq] at h
       rw [← h.1])
    | (cases hc : TransportV3.handleCalculate m.params.params m.id with
       | error e =>
         rw [hc] at h
         simp [Except.map] at h
       | ok rc =>
         rw [hc] at h
         simp only [Except.map, Except.ok.injEq, Prod.mk.injEq] at h
         rw [← h.1]
         exact handleCalculate_id hc)
    | simp_all

/-- Every response the second transport's `send` delivers — success or
error — carries the request id. -/
theorem send2_response_id {st : TransportV2.State} {m : JSONRPCMessage}
    {r : TransportV2.Response} {st' : TransportV2.State}
    (h : TransportV2.send st m = .ok (.response r, st')) : r.id = m.id := by
  simp only [TransportV2.send] at h
  repeat' split at h
  all_goals try simp_all
  · obtain ⟨h1, -⟩ := h
    subst h1
    rename_i heq
    split at heq
    · cases hh : TransportV2.handleToolMessage st.localStorage m with
      | error e =>
        rw [hh] at heq
        simp [Except.map] at heq
      | ok p =>
        rw [hh] at heq
        simp only [Except.map, Except.ok.injEq, Prod.mk.injEq] at heq
        rw [← heq.1]
    · split at heq
      · cases hh : TransportV2.handleResourceMessage st.localStorage m with
        | error e =>
          rw [hh] at heq
          simp [Except.map] at heq
        | ok p =>
          rw [hh] at heq
          simp only [Except.map, Except.ok.injEq, Prod.mk.injEq] at heq
          rw [← heq.1]
      · simp at heq
  · obtain ⟨h1, -⟩ := h
    rw [← h1]

/-- Every response the third transport's `send` returns (and hands to the
callbacks) carries the request id. -/
theorem send3_response_id {st : TransportV3.State} {m : JSONRPCMessage} {r : JSONRPCResponse}
    (h : (TransportV3.send st m).1 = .ok r) : r.id = m.id := by
  simp only [TransportV3.send] at h
  repeat' split at h
  all_goals try simp_all
  · rename_i heq
    exact handleToolMessage_id heq
  · rw [← h]
  · rw [← h]

/-- C1: for every request processed by the transport's `send` (tool,
resource, or test method, success or error outcome), any response it
produces and delivers to observers carries an id equal to the
originating request's id.  The first conjunct covers the transport at
`src/web/browser-transport.ts` lines 216-403 (whose `send` returns the
same response object it hands to every callback); the second covers the
transport at lines 57-215, where both success responses and the
try/catch error responses echo `message.id`. -/
theorem C1_response_id_equals_request_id :
    (∀ (st : TransportV3.State) (m : JSONRPCMessage),
      match (TransportV3.send st m).1 with
      | .ok r => r.id = m.id
      | .error _ => True) ∧
    (∀ (st : TransportV2.State) (m : JSONRPCMessage),
      match TransportV2.send st m with
      | .ok (.response r, _) => r.id = m.id
      | _ => True) := by
  constructor
  · intro st m
    cases hs : (TransportV3.send st m).1 with
    | error e => exact trivial
    | ok r => exact send3_response_id hs
  · intro st m
    cases hs : TransportV2.send st m with
    | error e => exact trivial
    | ok p =>
      obtain ⟨d, st'⟩ := p
      cases d with
      | passthrough m' => exact trivial
      | response r => exact send2_response_id hs

/-- C2: for every value of `a`, invoking the `calculate` tool with
operation `divide` and `b = 0` fails with the DivisionByZero error kind
and never returns a success payload.  Covers the transport at lines
216-403 (where the `b === 0` guard precedes every other check, so even
absent or zero `a` reaches it), the server handler of `src/web/server.ts`,
and the handler of `src/web/main.ts`. -/
theorem C2_divide_by_zero_always_fails :
    ∀ (a : Option Rat) (a' : Rat) (tm : Bool) (sto : TransportV3.Store)
      (lr : Option JSONRPCResponse) (i : Int),
      (TransportV3.send ⟨true, tm, sto, lr⟩ (calcMsg i (some "divide") a (some 0))).1
          = .error .divisionByZero
      ∧ ServerTs.serverCalculate .divide a' 0 = .error .divisionByZero
      ∧ mainCalculate "divide" a' 0 = .error .divisionByZero := by
  intro a a' tm sto lr i
  refine ⟨?_, ?_, ?_⟩
  · simp [TransportV3.send, calcMsg, TransportV3.handleToolMessage,
      TransportV3.handleCalculate, Except.map]
  · simp [ServerTs.serverCalculate]
  · simp [mainCalculate]

/-- C3 (failing input): `calculate` with operation `add`, `a = 0`,
`b = 1` through the transport at lines 216-403 throws `Invalid params`
— the guard `!operation || !a || !b` treats the number `0` as missing —
while the zod-validated server handler of `src/web/server.ts` returns
the success payload `"1"` for the same invocation, as the claim states
for all numeric pairs. -/
theorem C3_zero_operand_rejected :
    ∀ (tm : Bool) (sto : TransportV3.Store) (lr : Option JSONRPCResponse) (i : Int),
      (TransportV3.send ⟨true, tm, sto, lr⟩ (calcMsg i (some "add") (some 0) (some 1))).1
          = .error .invalidParams
      ∧ ServerTs.serverCalculate .add 0 1 = .ok ⟨[textItem "1"]⟩ := by
  intro tm sto lr i
  constructor
  · simp [TransportV3.send, calcMsg, TransportV3.handleToolMessage,
      TransportV3.handleCalculate, Except.map, jsFalsy, jsFalsyNum]
  · simp only [ServerTs.serverCalculate]
    rw [show (0 : ℚ) + 1 = 1 by norm_num]
    rfl

/-- C6 (counterexample): a transport constructed with `isTestMode = true`
on which `start()` was never called does not fail with NotConnected —
`send` of a test request succeeds, because the guard at lines 260-262 is
`!this.started && !this.isTestMode`. -/
theorem C6_counterexample_test_mode_bypasses_guard :
    (TransportV3.send ⟨false, true, [], none⟩ ⟨"2.0", 1, "test", {}⟩).1
      = .ok { id := 1, result := some ⟨[textItem "Test message received"]⟩ } := rfl

/-- C6 (amended): for every request, calling `send` on a transport that
is *not in test mode* and on which `start()` has not been called — or
after `stop()` — fails with the NotConnected error kind (the thrown
`Transport not connected`), producing neither a success response nor a
queued request. -/
theorem C6_amended_not_connected :
    ∀ (sto : TransportV3.Store) (lr : Option JSONRPCResponse) (m : JSONRPCMessage) (b : Bool),
      (TransportV3.send ⟨false, false, sto, lr⟩ m).1 = .error .transportNotConnected
      ∧ (TransportV3.send (TransportV3.stop ⟨b, false, sto, lr⟩) m).1
          = .error .transportNotConnected := by
  intro sto lr m b
  constructor
  · simp [TransportV3.send]
  · simp [TransportV3.send, TransportV3.stop]

/-- C7 (counterexample): after `start()`, in the transport at lines
216-403 a request with method `test` — a method outside
`{tool, resource}` — produces a *success* response rather than an
UnknownMethod error response, and a request with method `notify`
makes `send` throw `Unknown method: notify` (the exception escapes
`send`; no error response is produced or delivered). -/
theorem C7_counterexample_test_method_and_thrown :
    (TransportV3.send ⟨true, false, [], none⟩ ⟨"2.0", 3, "test", {}⟩).1
        = .ok { id := 3, result := some ⟨[textItem "Test message received"]⟩ }
    ∧ (TransportV3.send ⟨true, false, [], none⟩ ⟨"2.0", 4, "notify", {}⟩).1
        = .error (.unknownMethod "notify") := ⟨rfl, rfl⟩

/-- C7 (amended): after `start()`: in the transport at lines 216-403, a
request whose method is outside `{tool, test, resource}` makes `send`
throw `Unknown method: ...` (an exception escaping `send`), and a
request naming a tool outside `{calculate, storage-set, storage-get}`
makes `send` throw `Unknown tool`; in the transport at lines 57-215 the
try/catch turns the same failures into delivered error responses
(`Unknown method: ...` / `Unknown tool: ...`, code -32000), as the
original claim states. -/
theorem C7_amended_unknown_method_and_tool :
    (∀ (tm : Bool) (sto : TransportV3.Store) (lr : Option JSONRPCResponse)
        (i : Int) (mth : String) (pp : MsgParams),
        mth ≠ "tool" → mth ≠ "test" → mth ≠ "resource" →
        (TransportV3.send ⟨true, tm, sto, lr⟩ ⟨"2.0", i, mth, pp⟩).1
          = .error (.unknownMethod mth))
    ∧ (∀ (tm : Bool) (sto : TransportV3.Store) (lr : Option JSONRPCResponse)
        (i : Int) (nm : String) (tp : ToolParams),
        nm ≠ "calculate" → nm ≠ "storage-set" → nm ≠ "storage-get" →
        (TransportV3.send ⟨true, tm, sto, lr⟩
            ⟨"2.0", i, "tool", ⟨nm, tp, "", none⟩⟩).1 = .error .unknownTool)
    ∧ (∀ (sls : TransportV2.LS) (i : Int) (mth : String) (pp : MsgParams),
        mth ≠ "tool" → mth ≠ "resource" →
        TransportV2.send ⟨true, false, sls⟩ ⟨"2.0", i, mth, pp⟩
          = .ok (.response ⟨"2.0", i, none, some ⟨-32000, "Unknown method: " ++ mth⟩⟩,
                 ⟨true, false, sls⟩))
    ∧ (∀ (sls : TransportV2.LS) (i : Int) (nm : String) (tp : ToolParams),
        nm ≠ "calculate" → nm ≠ "set-storage" →
        TransportV2.send ⟨true, false, sls⟩ ⟨"2.0", i, "tool", ⟨nm, tp, "", none⟩⟩
          = .ok (.response ⟨"2.0", i, none, some ⟨-32000, "Unknown tool: " ++ nm⟩⟩,
                 ⟨true, false, sls⟩)) := by
  refine ⟨?_, ?_, ?_, ?_⟩
  · intro tm sto lr i mth pp h1 h2 h3
    simp [TransportV3.send, h1, h2, h3]
  · intro tm sto lr i nm tp h1 h2 h3
    simp [TransportV3.send, TransportV3.handleToolMessage, h1, h2, h3]
  · intro sls i mth pp h1 h2
    simp [TransportV2.send, h1, h2, ThrownError.message]
  · intro sls i nm tp h1 h2
    simp [TransportV2.send, TransportV2.handleToolMessage, h1, h2,
      ThrownError.message, Except.map]

/-- Witness for the amended C7 at concrete inputs. -/
theorem C7_amended_witness :
    (TransportV3.send ⟨true, false, [], none⟩ ⟨"2.0", 11, "foo", {}⟩).1
      = .error (.unknownMethod "foo")
    ∧ (TransportV3.send ⟨true, false, [], none⟩ ⟨"2.0", 12, "tool", ⟨"frob", {}, "", none⟩⟩).1
      = .error .unknownTool
    ∧ TransportV2.send ⟨true, false, []⟩ ⟨"2.0", 13, "bar", {}⟩
      = .ok (.response ⟨"2.0", 13, none, some ⟨-32000, "Unknown method: " ++ "bar"⟩⟩,
             ⟨true, false, []⟩)
    ∧ TransportV2.send ⟨true, false, []⟩ ⟨"2.0", 14, "tool", ⟨"frob2", {}, "", none⟩⟩
      = .ok (.response ⟨"2.0", 14, none, some ⟨-32000, "Unknown tool: " ++ "frob2"⟩⟩,
             ⟨true, false, []⟩) :=
  ⟨C7_amended_unknown_method_and_tool.1 false [] none 11 "foo" {}
      (by decide) (by decide) (by decide),
   C7_amended_unknown_method_and_tool.2.1 false [] none 12 "frob" {}
      (by decide) (by decide) (by decide),
   C7_amended_unknown_method_and_tool.2.2.1 [] 13 "bar" {} (by decide) (by decide),
   C7_amended_unknown_method_and_tool.2.2.2 [] 14 "frob2" {} (by decide) (by decide)⟩

/-- `Map.set` then `Map.get`: the written key reads back the written
value and every other key is untouched. -/
theorem storeGet_storeSet (sto : TransportV3.Store) (k : String) (v : Option String)
    (k' : String) :
    TransportV3.storeGet (TransportV3.storeSet sto k v) k'
      = if k' = k then v else TransportV3.storeGet sto k' := by
  induction sto with
  | nil =>
    by_cases hk : k' = k
    · simp [TransportV3.storeSet, TransportV3.storeGet, hk]
    · simp [TransportV3.storeSet, TransportV3.storeGet, hk, Ne.symm hk]
  | cons p rest ih =>
    obtain ⟨pk, pv⟩ := p
    by_cases hpk : pk = k
    · subst hpk
      by_cases hk : k' = pk
      · simp [TransportV3.storeSet, TransportV3.storeGet, hk]
      · simp [TransportV3.storeSet, TransportV3.storeGet, hk, Ne.symm hk]
    · by_cases hpk2 : pk = k'
      · have hk : ¬ k' = k := by
          intro h
          rw [hpk2, h] at hpk
          exact hpk rfl
        simp [TransportV3.storeSet, TransportV3.storeGet, hpk, hpk2, hk]
      · simp [TransportV3.storeSet, TransportV3.storeGet, hpk, hpk2, ih]

/-- The storage after a successful tool call: only the `storage-set`
branch mutates, and it stores exactly its key/value. -/
theorem handleToolMessage_storage {sto : TransportV3.Store} {m : JSONRPCMessage}
    {r : JSONRPCResponse} {sto' : TransportV3.Store}
    (h : TransportV3.handleToolMessage sto m = .ok (r, sto')) :
    sto' = (if m.params.name = "storage-set"
            then TransportV3.storeSet sto (m.params.params.key.getD "") m.params.params.value
            else sto) := by
  simp only [TransportV3.handleToolMessage] at h
  repeat' split at h
  all_goals first
    | (cases hc : TransportV3.handleCalculate m.params.params m.id with
       | error e =>
         rw [hc] at h
         simp [Except.map] at h
       | ok rc =>
         rw [hc] at h
         simp only [Except.map, Except.ok.injEq, Prod.mk.injEq] at h
         simp_all)
    | simp_all

/-- C9: storage atomicity on error — for every request whose handling
fails (invalid or missing params, unknown tool, division by zero, key
not found, not connected, unknown method), the storage map after `send`
returns is exactly the storage before; only a successful `storage-set`
mutates it, replacing exactly the entry of its key (second conjunct:
lookups at every other key are unchanged). -/
theorem C9_storage_atomicity :
    (∀ (st : TransportV3.State) (m : JSONRPCMessage),
      (TransportV3.send st m).2.storage =
        (match (TransportV3.send st m).1 with
         | .error _ => st.storage
         | .ok _ =>
           if m.method = "tool" ∧ m.params.name = "storage-set"
           then TransportV3.storeSet st.storage
                  (m.params.params.key.getD "") m.params.params.value
           else st.storage))
    ∧ (∀ (sto : TransportV3.Store) (k : String) (v : Option String) (k' : String),
        TransportV3.storeGet (TransportV3.storeSet sto k v) k'
          = if k' = k then v else TransportV3.storeGet sto k') := by
  constructor
  · intro st m
    rcases hsend : TransportV3.send st m with ⟨res, st'⟩
    dsimp only
    simp only [TransportV3.send] at hsend
    repeat' split at hsend
    all_goals (cases hsend)
    all_goals try simp_all
    · rename_i heq
      have := handleToolMessage_storage heq
      simp_all
  · intro sto k v k'
    exact storeGet_storeSet sto k v k'

/-- The calculate branch never throws `Transport not connected`. -/
theorem handleCalculate_error_ne {tp : ToolParams} {i : Int} {e : ThrownError}
    (h : TransportV3.handleCalculate tp i = .error e) : e ≠ .transportNotConnected := by
  simp only [TransportV3.handleCalculate] at h
  repeat' split at h
  all_goals first
    | (injection h with h2
       subst h2
       decide)
    | simp at h

/-- The tool handler never throws `Transport not connected`. -/
theorem handleToolMessage_error_ne {sto : TransportV3.Store} {m : JSONRPCMessage}
    {e : ThrownError} (h : TransportV3.handleToolMessage sto m = .error e) :
    e ≠ .transportNotConnected := by
  simp only [TransportV3.handleToolMessage] at h
  repeat' split at h
  all_goals first
    | (cases hc : TransportV3.handleCalculate m.params.params m.id with
       | error e2 =>
         rw [hc] at h
         simp only [Except.map, Except.error.injEq] at h
         subst h
         exact handleCalculate_error_ne hc
       | ok rc =>
         rw [hc] at h
         simp [Except.map] at h)
    | (injection h with h2
       subst h2
       decide)
    | simp at h

/-- The resource handler never throws `Transport not connected`. -/
theorem handleResourceMessage_error_ne {sto : TransportV3.Store} {m : JSONRPCMessage}
    {e : ThrownError} (h : TransportV3.handleResourceMessage sto m = .error e) :
    e ≠ .transportNotConnected := by
  simp only [TransportV3.handleResourceMessage] at h
  repeat' split at h
  all_goals first
    | (injection h with h2
       subst h2
       decide)
    | simp at h

/-- In test mode, `send` never throws `Transport not connected`. -/
theorem send3_no_notConnected {st : TransportV3.State} {m : JSONRPCMessage} {e : ThrownError}
    (hm : st.isTestMode = true) (h : (TransportV3.send st m).1 = .error e) :
    e ≠ .transportNotConnected := by
  have hg : (!st.started && !st.isTestMode) = false := by simp [hm]
  simp only [TransportV3.send, hg, Bool.false_eq_true, if_false] at h
  repeat' split at h
  all_goals first
    | (rename_i heq
       injection h with h2
       subst h2
       first
         | exact handleToolMessage_error_ne heq
         | exact handleResourceMessage_error_ne heq)
    | (injection h with h2
       subst h2
       simp)
    | simp at h

/-- C10: test-mode connection bypass — for a transport constructed with
`isTestMode = true`, `send` handles every request exactly as a started
transport does (same result, same storage effect), whether or not
`start()` was ever called, and never fails with NotConnected; the
NotConnected failure arises precisely when the transport is both
unstarted and not in test mode (last conjunct). -/
theorem C10_test_mode_bypass :
    ∀ (b : Bool) (sto : TransportV3.Store) (lr : Option JSONRPCResponse) (m : JSONRPCMessage),
      (TransportV3.send ⟨b, true, sto, lr⟩ m).1 = (TransportV3.send ⟨true, true, sto, lr⟩ m).1
      ∧ (TransportV3.send ⟨b, true, sto, lr⟩ m).2.storage
          = (TransportV3.send ⟨true, true, sto, lr⟩ m).2.storage
      ∧ (TransportV3.send ⟨b, true, sto, lr⟩ m).1 ≠ .error .transportNotConnected
      ∧ (TransportV3.send ⟨false, false, sto, lr⟩ m).1 = .error .transportNotConnected := by
  intro b sto lr m
  refine ⟨?_, ?_, ?_, ?_⟩
  · simp only [TransportV3.send]
    by_cases h1 : m.method = "tool"
    · simp only [h1]
      cases htm : TransportV3.handleToolMessage sto m with
      | error e => simp [htm]
      | ok p => simp [htm]
    · by_cases h2 : m.method = "test"
      · simp [h1, h2]
      · by_cases h3 : m.method = "resource"
        · simp only [h1, h2, h3]
          cases htm : TransportV3.handleResourceMessage sto m with
          | error e => simp [htm]
          | ok p => simp [htm]
        · simp [h1, h2, h3]
  · simp only [TransportV3.send]
    by_cases h1 : m.method = "tool"
    · simp only [h1]
      cases htm : TransportV3.handleToolMessage sto m with
      | error e => simp [htm]
      | ok p => simp [htm]
    · by_cases h2 : m.method = "test"
      · simp [h1, h2]
      · by_cases h3 : m.method = "resource"
        · simp only [h1, h2, h3]
          cases htm : TransportV3.handleResourceMessage sto m with
          | error e => simp [htm]
          | ok p => simp [htm]
        · simp [h1, h2, h3]
  · intro hcon
    exact send3_no_notConnected rfl hcon rfl
  · simp [TransportV3.send]

/-- `Map.set` then `Map.get` on the server storage: the written key reads
back the written value and every other key is untouched. -/
theorem sGet_sSet (sst : ServerTs.SStore) (k v : String) (k' : String) :
    ServerTs.sGet (ServerTs.sSet sst k v) k'
      = if k' = k then some v else ServerTs.sGet sst k' := by
  induction sst with
  | nil =>
    by_cases hk : k' = k
    · simp [ServerTs.sSet, ServerTs.sGet, hk]
    · simp [ServerTs.sSet, ServerTs.sGet, hk, Ne.symm hk]
  | cons p rest ih =>
    obtain ⟨pk, pv⟩ := p
    by_cases hpk : pk = k
    · subst hpk
      by_cases hk : k' = pk
      · simp [ServerTs.sSet, ServerTs.sGet, hk]
      · simp [ServerTs.sSet, ServerTs.sGet, hk, Ne.symm hk]
    · by_cases hpk2 : pk = k'
      · have hk : ¬ k' = k := by
          intro h
          rw [hpk2, h] at hpk
          exact hpk rfl
        simp [ServerTs.sSet, ServerTs.sGet, hpk, hpk2, hk]
      · simp [ServerTs.sSet, ServerTs.sGet, hpk, hpk2, ih]

/-- C4 (counterexamples): in the transport at lines 340-370 the
round-trip fails at key `""` — `storage-set` throws `Key is required`
(the `!key` guard treats `""` as missing), so no set-then-get can
succeed for that key; and in the server handlers of `src/web/server.ts`
the round-trip fails at value `""` — `storage-set("k", "")` succeeds,
but the following `storage-get("k")` throws `Key not found`, because the
get's `!value` falsiness test also fires on a stored empty string. -/
theorem C4_counterexample_empty_key :
    (TransportV3.send ⟨true, false, [], none⟩ (storageSetMsg 1 (some "") (some "v"))).1
      = .error .keyRequired
    ∧ (ServerTs.serverStorageSet [] "k" "").1 = ⟨[textItem "Value stored successfully"]⟩
    ∧ ServerTs.serverStorageGet (ServerTs.serverStorageSet [] "k" "").2 "k"
      = .error .keyNotFound := ⟨rfl, rfl, rfl⟩

/-- C4 (amended): in the transport at lines 340-370, for every
*nonempty* key and every value, `storage-set(key, value)` succeeds with
`"Value stored successfully"`, a following `storage-get(key)` succeeds
and yields exactly `value`, the get leaves the storage map unchanged,
and repeating the get returns the identical result and state (get is
idempotent).  In the server handlers of `src/web/server.ts`, for every
key (the zod schema accepts the empty key) and every *nonempty* value,
`storage-set` succeeds and a following `storage-get` yields exactly
`value` (the get only reads the shared map); a value set to `""` is
instead reported as `Key not found` by the get's falsiness test. -/
theorem C4_amended_roundtrip_nonempty_key :
    (∀ (key value : String) (tm : Bool) (sto : TransportV3.Store)
        (lr : Option JSONRPCResponse) (i j : Int),
      key ≠ "" →
      (let out1 := TransportV3.send ⟨true, tm, sto, lr⟩
          (storageSetMsg i (some key) (some value));
       let out2 := TransportV3.send out1.2 (storageGetToolMsg j (some key));
       out1.1 = .ok ⟨"2.0", i, some ⟨[textItem "Value stored successfully"]⟩, none⟩
       ∧ out2.1 = .ok ⟨"2.0", j, some ⟨[textItem value]⟩, none⟩
       ∧ out2.2.storage = out1.2.storage
       ∧ TransportV3.send out2.2 (storageGetToolMsg j (some key)) = out2))
    ∧ (∀ (key value : String) (sst : ServerTs.SStore),
      value ≠ "" →
      (ServerTs.serverStorageSet sst key value).1
          = ⟨[textItem "Value stored successfully"]⟩
      ∧ ServerTs.serverStorageGet (ServerTs.serverStorageSet sst key value).2 key
          = .ok ⟨[textItem value]⟩) := by
  constructor
  · intro key value tm sto lr i j hk
    have hkf : jsFalsy (some key) = false := by simp [jsFalsy, hk]
    have hget2 : TransportV3.storeGet (TransportV3.storeSet sto key (some value)) key
        = some value := by
      rw [storeGet_storeSet]
      simp
    dsimp only
    simp [TransportV3.send, storageSetMsg, storageGetToolMsg,
      TransportV3.handleToolMessage, hkf, hget2]
  · intro key value sst hv
    have hg : ServerTs.sGet (ServerTs.sSet sst key value) key = some value := by
      rw [sGet_sSet]
      simp
    exact ⟨rfl, by simp [ServerTs.serverStorageGet, ServerTs.serverStorageSet,
      hg, jsFalsy, hv]⟩

/-- Witness for the amended C4 at concrete keys and values. -/
theorem C4_amended_witness :
    (let out1 := TransportV3.send ⟨true, false, [], none⟩
        (storageSetMsg 1 (some "k") (some "v"));
     let out2 := TransportV3.send out1.2 (storageGetToolMsg 2 (some "k"));
     out1.1 = .ok ⟨"2.0", 1, some ⟨[textItem "Value stored successfully"]⟩, none⟩
     ∧ out2.1 = .ok ⟨"2.0", 2, some ⟨[textItem "v"]⟩, none⟩
     ∧ out2.2.storage = out1.2.storage
     ∧ TransportV3.send out2.2 (storageGetToolMsg 2 (some "k")) = out2)
    ∧ ((ServerTs.serverStorageSet [] "k2" "v2").1
          = ⟨[textItem "Value stored successfully"]⟩
       ∧ ServerTs.serverStorageGet (ServerTs.serverStorageSet [] "k2" "v2").2 "k2"
          = .ok ⟨[textItem "v2"]⟩) :=
  ⟨C4_amended_roundtrip_nonempty_key.1 "k" "v" false [] none 1 2 (by decide),
   C4_amended_roundtrip_nonempty_key.2 "k2" "v2" [] (by decide)⟩

/-- C5 (counterexample): the server's resource read
(`src/web/server.ts` lines 79-95) surfaces an absent key as a
*successful* text payload `"Key not found"`, not on the error channel —
here for key `"k"` on empty storage, a key on which no `storage-set`
ever completed. -/
theorem C5_counterexample_resource_success_text :
    ServerTs.serverStorageResource [] (some "k") = .ok ⟨[textItem "Key not found"]⟩ := rfl

/-- C5 (amended): for every *nonempty* key absent from storage (no
completed `storage-set`), the transport's `storage-get` fails with the
KeyNotFound error kind in both its tool form and its resource form, and
the server's `storage-get` *tool* also fails with KeyNotFound; the
server's *resource read*, however, returns the successful text payload
`"Key not found"` instead of an error.  (For the empty key, the
transport forms fail with `Key is required` instead.) -/
theorem C5_amended_key_not_found :
    ∀ (key : String) (tm : Bool) (lr : Option JSONRPCResponse) (i : Int)
      (sto : TransportV3.Store) (sst : ServerTs.SStore),
      key ≠ "" → TransportV3.storeGet sto key = none → ServerTs.sGet sst key = none →
      (TransportV3.send ⟨true, tm, sto, lr⟩ (storageGetToolMsg i (some key))).1
          = .error .keyNotFound
      ∧ (TransportV3.send ⟨true, tm, sto, lr⟩ (storageGetResMsg i (some key))).1
          = .error .keyNotFound
      ∧ ServerTs.serverStorageGet sst key = .error .keyNotFound
      ∧ ServerTs.serverStorageResource sst (some key) = .ok ⟨[textItem "Key not found"]⟩ := by
  intro key tm lr i sto sst hk hsto hsst
  have hkf : jsFalsy (some key) = false := by simp [jsFalsy, hk]
  refine ⟨?_, ?_, ?_, ?_⟩
  · simp [TransportV3.send, storageGetToolMsg, TransportV3.handleToolMessage, hkf, hsto]
  · simp [TransportV3.send, storageGetResMsg, TransportV3.handleResourceMessage, hkf, hsto]
  · simp [ServerTs.serverStorageGet, hsst, jsFalsy]
  · simp [ServerTs.serverStorageResource, hsst, hkf, jsFalsy, hk]

/-- Witness for the amended C5 at a concrete never-set key. -/
theorem C5_amended_witness :
    (TransportV3.send ⟨true, false, [], none⟩ (storageGetToolMsg 21 (some "missing"))).1
        = .error .keyNotFound
    ∧ (TransportV3.send ⟨true, false, [], none⟩ (storageGetResMsg 21 (some "missing"))).1
        = .error .keyNotFound
    ∧ ServerTs.serverStorageGet [] "missing" = .error .keyNotFound
    ∧ ServerTs.serverStorageResource [] (some "missing")
        = .ok ⟨[textItem "Key not found"]⟩ :=
  C5_amended_key_not_found "missing" false none 21 [] [] (by decide) rfl rfl

namespace Extractor

/-- The prefix test only inspects the first `s.length` characters. -/
theorem pfx_of_pfx_append : ∀ {s a : List Char} (b : List Char),
    s.length ≤ a.length → pfx s (a ++ b) = true → pfx s a = true := by
  intro s
  induction s with
  | nil => intro a b _ _; simp [pfx]
  | cons x xs ih =>
    intro a b hlen hp
    cases a with
    | nil => simp at hlen
    | cons c cs =>
      simp only [List.cons_append, pfx, Bool.and_eq_true, beq_iff_eq] at hp ⊢
      exact ⟨hp.1, ih b (by simpa using hlen) hp.2⟩

/-- A prefix occurrence is a substring occurrence. -/
theorem hasSub_of_pfx {s l : List Char} (h : pfx s l = true) : hasSub s l = true := by
  cases l with
  | nil => simpa [hasSub] using h
  | cons c cs => simp [hasSub, h]

/-- Unfolding equation of `splitOnFirst` when the pattern matches at the
head. -/
theorem splitOnFirst_cons_pos {sep : List Char} {c : Char} {cs : List Char}
    (h : pfx sep (c :: cs) = true) :
    splitOnFirst sep (c :: cs) = some ([], (c :: cs).drop sep.length) := by
  simp [splitOnFirst, h]

/-- Unfolding equation of `splitOnFirst` when the pattern does not match
at the head. -/
theorem splitOnFirst_cons_neg {sep : List Char} {c : Char} {cs : List Char}
    (h : pfx sep (c :: cs) = false) :
    splitOnFirst sep (c :: cs)
      = (match splitOnFirst sep cs with
         | some p => some (c :: p.1, p.2)
         | none => none) := by
  simp [splitOnFirst, h]

/-- A match of `sep` starting at the head of `c :: a ++ (sep ++ b)` lies
within `c :: a ++ sep.dropLast`. -/
theorem hasSub_of_straddle {sep b : List Char} (c : Char) (a : List Char)
    (hsep : sep ≠ [])
    (hp : pfx sep (c :: (a ++ (sep ++ b))) = true) :
    hasSub sep (c :: (a ++ sep.dropLast)) = true := by
  rcases List.eq_nil_or_concat sep with hnil | ⟨ys, z, hcat⟩
  · exact absurd hnil hsep
  · rw [List.concat_eq_append] at hcat
    subst hcat
    rw [List.dropLast_concat]
    have hre : c :: (a ++ ((ys ++ [z]) ++ b)) = (c :: (a ++ ys)) ++ (z :: b) := by
      simp
    rw [hre] at hp
    have hlen : (ys ++ [z]).length ≤ (c :: (a ++ ys)).length := by
      simp only [List.length_append, List.length_cons, List.length_nil]
      omega
    exact hasSub_of_pfx (pfx_of_pfx_append _ hlen hp)

/-- With no straddling occurrence in `a`, the first occurrence of the
separator in `a ++ (sep ++ b)` is the explicit one. -/
theorem splitOnFirst_clean : ∀ (a : List Char) {b sep : List Char}, sep ≠ [] →
    hasSub sep (a ++ sep.dropLast) = false →
    splitOnFirst sep (a ++ (sep ++ b)) = some (a, b) := by
  intro a
  induction a with
  | nil =>
    intro b sep hsep hclean
    cases hs : sep with
    | nil => exact absurd hs hsep
    | cons s0 ss =>
      subst hs
      have hpfx : pfx (s0 :: ss) (s0 :: (ss ++ b)) = true := by
        have := pfx_self_append (s0 :: ss) b
        simpa using this
      rw [List.nil_append, List.cons_append, splitOnFirst_cons_pos hpfx]
      simp [List.drop_left]
  | cons c a' ih =>
    intro b sep hsep hclean
    simp only [List.cons_append, hasSub, Bool.or_eq_false_iff, List.append_eq] at hclean
    have hpfx : pfx sep (c :: (a' ++ (sep ++ b))) = false := by
      cases hval : pfx sep (c :: (a' ++ (sep ++ b))) with
      | false => rfl
      | true =>
        have h2 := hasSub_of_straddle c a' hsep hval
        simp only [hasSub, Bool.or_eq_true] at h2
        rcases h2 with h2 | h2
        · rw [hclean.1] at h2
          exact absurd h2 (by simp)
        · rw [hclean.2] at h2
          exact absurd h2 (by simp)
    rw [List.cons_append, splitOnFirst_cons_neg hpfx, ih hsep hclean.2]

end Extractor

namespace Extractor

/-- Skipping a whitespace run distributes over an all-whitespace prefix. -/
theorem dropWhile_append_of_all {p : Char → Bool} : ∀ {w s : List Char}, w.all p = true →
    (w ++ s).dropWhile p = s.dropWhile p := by
  intro w
  induction w with
  | nil => intro s _; simp
  | cons c cs ih =>
    intro s hw
    simp only [List.all_cons, Bool.and_eq_true] at hw
    simp [List.dropWhile_cons, hw.1, ih hw.2]

/-- The regex tail after `</tool>` matches the canonical decomposition:
an all-whitespace gap, the literal `<params>`, a capture free of
`</params>` (also at the seams), the closing literal. -/
theorem matchParams_canonical {w j rest : List Char}
    (hw : w.all isWs = true)
    (hj : hasSub pParamsEnd (j ++ pParamsEnd.dropLast) = false) :
    matchParams (w ++ (pParams ++ (j ++ (pParamsEnd ++ rest)))) = some (j, rest) := by
  unfold matchParams
  have h1 : (w ++ (pParams ++ (j ++ (pParamsEnd ++ rest)))).dropWhile isWs
      = pParams ++ (j ++ (pParamsEnd ++ rest)) := by
    rw [dropWhile_append_of_all hw]
    rw [show pParams ++ (j ++ (pParamsEnd ++ rest))
        = '<' :: ("params>".toList ++ (j ++ (pParamsEnd ++ rest))) from rfl]
    rw [List.dropWhile_cons_of_neg (by decide)]
  rw [h1]
  have h3 : pfx pParams (pParams ++ (j ++ (pParamsEnd ++ rest))) = true :=
    pfx_self_append _ _
  rw [if_pos h3]
  rw [List.drop_left]
  exact splitOnFirst_clean j (by decide) hj

/-- The backtracking matcher on the canonical decomposition after
`<tool>`: a name free of `</tool>`, the closing tag, whitespace,
`<params>`, a capture free of `</params>`, the closing tag. -/
theorem matchToolTail_canonical {n w j rest : List Char}
    (hn : hasSub pToolEnd (n ++ pToolEnd.dropLast) = false)
    (hw : w.all isWs = true)
    (hj : hasSub pParamsEnd (j ++ pParamsEnd.dropLast) = false) :
    matchToolTail (n ++ (pToolEnd ++ (w ++ (pParams ++ (j ++ (pParamsEnd ++ rest))))))
      = some (n, j, rest) := by
  rw [matchToolTail]
  split
  · rename_i hnone
    rw [splitOnFirst_clean n (by decide) hn] at hnone
    exact absurd hnone (by simp)
  · rename_i p hp
    rw [splitOnFirst_clean n (by decide) hn] at hp
    injection hp with hp2
    subst hp2
    dsimp only
    rw [matchParams_canonical hw hj]

/-- The scan of empty text yields nothing. -/
theorem extractFrom_nil : extractFrom [] = [] := by
  rw [extractFrom]

/-- The scan advances one character when no match starts here. -/
theorem extractFrom_cons_neg {c : Char} {cs : List Char}
    (h : pfx pTool (c :: cs) = false) :
    extractFrom (c :: cs) = extractFrom cs := by
  rw [extractFrom]
  simp [h]

/-- Text without `<tool>` yields no directives. -/
theorem extractFrom_no_tool : ∀ {l : List Char}, hasSub pTool l = false →
    extractFrom l = [] := by
  intro l
  induction l with
  | nil => intro h; exact extractFrom_nil
  | cons c cs ih =>
    intro h
    simp only [hasSub, Bool.or_eq_false_iff] at h
    rw [extractFrom_cons_neg h.1]
    exact ih h.2

/-- The scan steps over a prefix containing no (possibly straddling)
`<tool>` occurrence. -/
theorem extractFrom_clean : ∀ (p : List Char) {rest : List Char},
    hasSub pTool (p ++ pTool.dropLast) = false →
    extractFrom (p ++ (pTool ++ rest)) = extractFrom (pTool ++ rest) := by
  intro p
  induction p with
  | nil => intro rest _; rw [List.nil_append]
  | cons c p' ih =>
    intro rest hclean
    simp only [List.cons_append, hasSub, Bool.or_eq_false_iff, List.append_eq] at hclean
    have hpfx : pfx pTool (c :: (p' ++ (pTool ++ rest))) = false := by
      cases hval : pfx pTool (c :: (p' ++ (pTool ++ rest))) with
      | false => rfl
      | true =>
        have h2 := hasSub_of_straddle c p' (by decide) hval
        simp only [hasSub, Bool.or_eq_true] at h2
        rcases h2 with h2 | h2
        · rw [hclean.1] at h2
          exact absurd h2 (by simp)
        · rw [hclean.2] at h2
          exact absurd h2 (by simp)
    rw [List.cons_append, extractFrom_cons_neg hpfx]
    exact ih hclean.2

/-- The scan at a well-formed directive emits its two captures and
resumes right after the match. -/
theorem extractFrom_at_directive {n w j rest : List Char}
    (hn : hasSub pToolEnd (n ++ pToolEnd.dropLast) = false)
    (hw : w.all isWs = true)
    (hj : hasSub pParamsEnd (j ++ pParamsEnd.dropLast) = false) :
    extractFrom (pTool ++ (n ++ (pToolEnd ++ (w ++ (pParams ++ (j ++ (pParamsEnd ++ rest)))))))
      = (n, j) :: extractFrom rest := by
  rw [show pTool ++ (n ++ (pToolEnd ++ (w ++ (pParams ++ (j ++ (pParamsEnd ++ rest))))))
      = '<' :: ("tool>".toList ++ (n ++ (pToolEnd ++ (w ++ (pParams ++ (j ++ (pParamsEnd ++ rest)))))))
      from rfl]
  rw [extractFrom]
  have hpfx : pfx pTool
      ('<' :: ("tool>".toList ++ (n ++ (pToolEnd ++ (w ++ (pParams ++ (j ++ (pParamsEnd ++ rest)))))))) = true :=
    pfx_self_append pTool _
  rw [if_pos hpfx]
  have hdrop : ('<' :: ("tool>".toList ++ (n ++ (pToolEnd ++ (w ++ (pParams ++ (j ++ (pParamsEnd ++ rest)))))))).drop pTool.length
      = n ++ (pToolEnd ++ (w ++ (pParams ++ (j ++ (pParamsEnd ++ rest))))) := rfl
  split
  · rename_i r hr
    rw [hdrop, matchToolTail_canonical hn hw hj] at hr
    injection hr with hr2
    subst hr2
    rfl
  · rename_i hr
    rw [hdrop, matchToolTail_canonical hn hw hj] at hr
    exact absurd hr (by simp)

end Extractor

namespace Extractor

/-- The global scan of a text made of two well-formed directives
surrounded by directive-free filler returns exactly the two capture
pairs, in source order. -/
theorem extractFrom_two_directives
    (p n1 w1 j1 mid n2 w2 j2 post : List Char)
    (hp : hasSub pTool (p ++ pTool.dropLast) = false)
    (hn1 : hasSub pToolEnd (n1 ++ pToolEnd.dropLast) = false)
    (hw1 : w1.all isWs = true)
    (hj1 : hasSub pParamsEnd (j1 ++ pParamsEnd.dropLast) = false)
    (hmid : hasSub pTool (mid ++ pTool.dropLast) = false)
    (hn2 : hasSub pToolEnd (n2 ++ pToolEnd.dropLast) = false)
    (hw2 : w2.all isWs = true)
    (hj2 : hasSub pParamsEnd (j2 ++ pParamsEnd.dropLast) = false)
    (hpost : hasSub pTool post = false) :
    extractFrom (p ++ (pTool ++ (n1 ++ (pToolEnd ++ (w1 ++ (pParams ++ (j1 ++ (pParamsEnd
        ++ (mid ++ (pTool ++ (n2 ++ (pToolEnd ++ (w2 ++ (pParams ++ (j2 ++ (pParamsEnd
        ++ post))))))))))))))))
      = [(n1, j1), (n2, j2)] := by
  rw [extractFrom_clean p hp]
  rw [extractFrom_at_directive hn1 hw1 hj1]
  rw [extractFrom_clean mid hmid]
  rw [extractFrom_at_directive hn2 hw2 hj2]
  rw [extractFrom_no_tool hpost]


/-- C8 (counterexample): the extraction performed by
`LLMHandler.processUserInput` (`src/web/llm.ts` lines 109-125), also
cited by the claim, refutes it on both halves — given a text carrying
two well-formed directives it surfaces only the *first* directive, never
both; and when the first directive's params are malformed JSON it aborts
and returns nothing, instead of returning the remaining well-formed
directive. -/
theorem C8_counterexample_llm_single_match :
    llmExtract (String.mk ("Intro ".toList ++ (pTool ++ ("calculate".toList
        ++ (pToolEnd ++ (" ".toList ++ (pParams ++ ("\x7b\"a\": 5\x7d".toList
        ++ (pParamsEnd ++ (" mid ".toList ++ (pTool ++ (" storage-get ".toList
        ++ (pToolEnd ++ ("".toList ++ (pParams ++ ("\x7b\"key\": \"k\"\x7d".toList
        ++ (pParamsEnd ++ " done".toList)))))))))))))))))
      = some ⟨String.mk "calculate".toList,
          Json.JsonValue.obj [("a", Json.JsonValue.num 5)]⟩
    ∧ llmExtract (String.mk ("Intro ".toList ++ (pTool ++ ("calculate".toList
        ++ (pToolEnd ++ (" ".toList ++ (pParams ++ ("\x7bbad\x7d".toList
        ++ (pParamsEnd ++ (" mid ".toList ++ (pTool ++ (" storage-get ".toList
        ++ (pToolEnd ++ ("".toList ++ (pParams ++ ("\x7b\"key\": \"k\"\x7d".toList
        ++ (pParamsEnd ++ " done".toList)))))))))))))))))
      = none := by
  have hext1 := extractFrom_two_directives "Intro ".toList "calculate".toList " ".toList
      "\x7b\"a\": 5\x7d".toList " mid ".toList " storage-get ".toList "".toList
      "\x7b\"key\": \"k\"\x7d".toList " done".toList
      (by decide) (by decide) (by decide) (by decide) (by decide) (by decide)
      (by decide) (by decide) (by decide)
  have hext2 := extractFrom_two_directives "Intro ".toList "calculate".toList " ".toList
      "\x7bbad\x7d".toList " mid ".toList " storage-get ".toList "".toList
      "\x7b\"key\": \"k\"\x7d".toList " done".toList
      (by decide) (by decide) (by decide) (by decide) (by decide) (by decide)
      (by decide) (by decide) (by decide)
  constructor
  · unfold llmExtract llmToolMatch
    rw [show (String.mk ("Intro ".toList ++ (pTool ++ ("calculate".toList
        ++ (pToolEnd ++ (" ".toList ++ (pParams ++ ("\x7b\"a\": 5\x7d".toList
        ++ (pParamsEnd ++ (" mid ".toList ++ (pTool ++ (" storage-get ".toList
        ++ (pToolEnd ++ ("".toList ++ (pParams ++ ("\x7b\"key\": \"k\"\x7d".toList
        ++ (pParamsEnd ++ " done".toList))))))))))))))))).toList
        = "Intro ".toList ++ (pTool ++ ("calculate".toList
        ++ (pToolEnd ++ (" ".toList ++ (pParams ++ ("\x7b\"a\": 5\x7d".toList
        ++ (pParamsEnd ++ (" mid ".toList ++ (pTool ++ (" storage-get ".toList
        ++ (pToolEnd ++ ("".toList ++ (pParams ++ ("\x7b\"key\": \"k\"\x7d".toList
        ++ (pParamsEnd ++ " done".toList))))))))))))))) from rfl, hext1]
    rfl
  · unfold llmExtract llmToolMatch
    rw [show (String.mk ("Intro ".toList ++ (pTool ++ ("calculate".toList
        ++ (pToolEnd ++ (" ".toList ++ (pParams ++ ("\x7bbad\x7d".toList
        ++ (pParamsEnd ++ (" mid ".toList ++ (pTool ++ (" storage-get ".toList
        ++ (pToolEnd ++ ("".toList ++ (pParams ++ ("\x7b\"key\": \"k\"\x7d".toList
        ++ (pParamsEnd ++ " done".toList))))))))))))))))).toList
        = "Intro ".toList ++ (pTool ++ ("calculate".toList
        ++ (pToolEnd ++ (" ".toList ++ (pParams ++ ("\x7bbad\x7d".toList
        ++ (pParamsEnd ++ (" mid ".toList ++ (pTool ++ (" storage-get ".toList
        ++ (pToolEnd ++ ("".toList ++ (pParams ++ ("\x7b\"key\": \"k\"\x7d".toList
        ++ (pParamsEnd ++ " done".toList))))))))))))))) from rfl, hext2]
    rfl

/-- C8 (amended): for every input text containing two well-formed
directives (`<tool>NAME</tool>`, optional whitespace,
`<params>JSON</params>`, with no stray `<tool>` in the surrounding
filler, no `</tool>` inside the names, and no `</params>` inside the
params), the extractor `LLMHandler.parseToolCalls`
(`src/unnamed/part_005` lines 75-92) returns both directives in
left-to-right source order, each with the trimmed name and the
`JSON.parse`d params; and when either the first or the second
directive's params are malformed JSON, that occurrence is dropped while
the other well-formed directive is still returned.  The extraction path
of `src/web/llm.ts` lines 109-125, by contrast, surfaces at most the
first directive (single non-global match, untrimmed name) and returns
nothing at all when that first directive's params are malformed. -/
theorem C8_extractor_two_directives :
    ∀ (p n1 w1 j1 mid n2 w2 j2 post : List Char),
      hasSub pTool (p ++ pTool.dropLast) = false →
      hasSub pToolEnd (n1 ++ pToolEnd.dropLast) = false →
      w1.all isWs = true →
      hasSub pParamsEnd (j1 ++ pParamsEnd.dropLast) = false →
      hasSub pTool (mid ++ pTool.dropLast) = false →
      hasSub pToolEnd (n2 ++ pToolEnd.dropLast) = false →
      w2.all isWs = true →
      hasSub pParamsEnd (j2 ++ pParamsEnd.dropLast) = false →
      hasSub pTool post = false →
      (∀ (v1 v2 : Json.JsonValue),
        Json.jsonParse (String.mk j1) = some v1 →
        Json.jsonParse (String.mk j2) = some v2 →
        parseToolCalls (String.mk (p ++ (pTool ++ (n1 ++ (pToolEnd ++ (w1 ++ (pParams
            ++ (j1 ++ (pParamsEnd ++ (mid ++ (pTool ++ (n2 ++ (pToolEnd ++ (w2
            ++ (pParams ++ (j2 ++ (pParamsEnd ++ post)))))))))))))))))
          = [⟨String.mk (jsTrim n1), v1⟩, ⟨String.mk (jsTrim n2), v2⟩])
      ∧ (∀ (v2 : Json.JsonValue),
        Json.jsonParse (String.mk j1) = none →
        Json.jsonParse (String.mk j2) = some v2 →
        parseToolCalls (String.mk (p ++ (pTool ++ (n1 ++ (pToolEnd ++ (w1 ++ (pParams
            ++ (j1 ++ (pParamsEnd ++ (mid ++ (pTool ++ (n2 ++ (pToolEnd ++ (w2
            ++ (pParams ++ (j2 ++ (pParamsEnd ++ post)))))))))))))))))
          = [⟨String.mk (jsTrim n2), v2⟩])
      ∧ (∀ (v1 : Json.JsonValue),
        Json.jsonParse (String.mk j1) = some v1 →
        Json.jsonParse (String.mk j2) = none →
        parseToolCalls (String.mk (p ++ (pTool ++ (n1 ++ (pToolEnd ++ (w1 ++ (pParams
            ++ (j1 ++ (pParamsEnd ++ (mid ++ (pTool ++ (n2 ++ (pToolEnd ++ (w2
            ++ (pParams ++ (j2 ++ (pParamsEnd ++ post)))))))))))))))))
          = [⟨String.mk (jsTrim n1), v1⟩])
      ∧ (∀ (v1 : Json.JsonValue),
        Json.jsonParse (String.mk j1) = some v1 →
        llmExtract (String.mk (p ++ (pTool ++ (n1 ++ (pToolEnd ++ (w1 ++ (pParams
            ++ (j1 ++ (pParamsEnd ++ (mid ++ (pTool ++ (n2 ++ (pToolEnd ++ (w2
            ++ (pParams ++ (j2 ++ (pParamsEnd ++ post)))))))))))))))))
          = some ⟨String.mk n1, v1⟩)
      ∧ (Json.jsonParse (String.mk j1) = none →
        llmExtract (String.mk (p ++ (pTool ++ (n1 ++ (pToolEnd ++ (w1 ++ (pParams
            ++ (j1 ++ (pParamsEnd ++ (mid ++ (pTool ++ (n2 ++ (pToolEnd ++ (w2
            ++ (pParams ++ (j2 ++ (pParamsEnd ++ post)))))))))))))))))
          = none) := by
  intro p n1 w1 j1 mid n2 w2 j2 post hp hn1 hw1 hj1 hmid hn2 hw2 hj2 hpost
  have hext := extractFrom_two_directives p n1 w1 j1 mid n2 w2 j2 post
    hp hn1 hw1 hj1 hmid hn2 hw2 hj2 hpost
  have htl : (String.mk (p ++ (pTool ++ (n1 ++ (pToolEnd ++ (w1 ++ (pParams
      ++ (j1 ++ (pParamsEnd ++ (mid ++ (pTool ++ (n2 ++ (pToolEnd ++ (w2
      ++ (pParams ++ (j2 ++ (pParamsEnd ++ post))))))))))))))))).toList
      = p ++ (pTool ++ (n1 ++ (pToolEnd ++ (w1 ++ (pParams
      ++ (j1 ++ (pParamsEnd ++ (mid ++ (pTool ++ (n2 ++ (pToolEnd ++ (w2
      ++ (pParams ++ (j2 ++ (pParamsEnd ++ post))))))))))))))) := rfl
  refine ⟨?_, ?_, ?_, ?_, ?_⟩
  · intro v1 v2 hv1 hv2
    unfold parseToolCalls
    rw [htl, hext]
    simp [List.filterMap_cons, hv1, hv2]
  · intro v2 hv1 hv2
    unfold parseToolCalls
    rw [htl, hext]
    simp [List.filterMap_cons, hv1, hv2]
  · intro v1 hv1 hv2
    unfold parseToolCalls
    rw [htl, hext]
    simp [List.filterMap_cons, hv1, hv2]
  · intro v1 hv1
    unfold llmExtract llmToolMatch
    rw [htl, hext]
    simp [List.head?_cons, hv1]
  · intro hv1
    unfold llmExtract llmToolMatch
    rw [htl, hext]
    simp [List.head?_cons, hv1]

/-- Witness for the amended C8 at concrete two-directive texts: both
params well-formed, first params malformed (`nope`), and second params
malformed, for `parseToolCalls`; and the single-match `llm.ts`
behavior on the well-formed and first-malformed texts. -/
theorem C8_extractor_witness :
    parseToolCalls (String.mk ("Hi ".toList ++ (pTool ++ ("t1".toList
        ++ (pToolEnd ++ ("\n".toList ++ (pParams ++ ("\x7b\"a\": 1\x7d".toList
        ++ (pParamsEnd ++ (" x ".toList ++ (pTool ++ (" t2 ".toList
        ++ (pToolEnd ++ ("".toList ++ (pParams ++ ("[1, 2]".toList
        ++ (pParamsEnd ++ " end".toList)))))))))))))))))
      = [⟨String.mk (jsTrim "t1".toList),
          Json.JsonValue.obj [("a", Json.JsonValue.num 1)]⟩,
         ⟨String.mk (jsTrim " t2 ".toList),
          Json.JsonValue.arr [Json.JsonValue.num 1, Json.JsonValue.num 2]⟩]
    ∧ parseToolCalls (String.mk ("Hi ".toList ++ (pTool ++ ("t1".toList
        ++ (pToolEnd ++ ("\n".toList ++ (pParams ++ ("nope".toList
        ++ (pParamsEnd ++ (" x ".toList ++ (pTool ++ (" t2 ".toList
        ++ (pToolEnd ++ ("".toList ++ (pParams ++ ("[1, 2]".toList
        ++ (pParamsEnd ++ " end".toList)))))))))))))))))
      = [⟨String.mk (jsTrim " t2 ".toList),
          Json.JsonValue.arr [Json.JsonValue.num 1, Json.JsonValue.num 2]⟩]
    ∧ parseToolCalls (String.mk ("Hi ".toList ++ (pTool ++ ("t1".toList
        ++ (pToolEnd ++ ("\n".toList ++ (pParams ++ ("\x7b\"a\": 1\x7d".toList
        ++ (pParamsEnd ++ (" x ".toList ++ (pTool ++ (" t2 ".toList
        ++ (pToolEnd ++ ("".toList ++ (pParams ++ ("nope".toList
        ++ (pParamsEnd ++ " end".toList)))))))))))))))))
      = [⟨String.mk (jsTrim "t1".toList),
          Json.JsonValue.obj [("a", Json.JsonValue.num 1)]⟩]
    ∧ llmExtract (String.mk ("Hi ".toList ++ (pTool ++ ("t1".toList
        ++ (pToolEnd ++ ("\n".toList ++ (pParams ++ ("\x7b\"a\": 1\x7d".toList
        ++ (pParamsEnd ++ (" x ".toList ++ (pTool ++ (" t2 ".toList
        ++ (pToolEnd ++ ("".toList ++ (pParams ++ ("[1, 2]".toList
        ++ (pParamsEnd ++ " end".toList)))))))))))))))))
      = some ⟨String.mk "t1".toList,
          Json.JsonValue.obj [("a", Json.JsonValue.num 1)]⟩
    ∧ llmExtract (String.mk ("Hi ".toList ++ (pTool ++ ("t1".toList
        ++ (pToolEnd ++ ("\n".toList ++ (pParams ++ ("nope".toList
        ++ (pParamsEnd ++ (" x ".toList ++ (pTool ++ (" t2 ".toList
        ++ (pToolEnd ++ ("".toList ++ (pParams ++ ("[1, 2]".toList
        ++ (pParamsEnd ++ " end".toList)))))))))))))))))
      = none :=
  ⟨(C8_extractor_two_directives "Hi ".toList "t1".toList "\n".toList
      "\x7b\"a\": 1\x7d".toList " x ".toList " t2 ".toList "".toList
      "[1, 2]".toList " end".toList
      (by decide) (by decide) (by decide) (by decide) (by decide) (by decide)
      (by decide) (by decide) (by decide)).1
      (Json.JsonValue.obj [("a", Json.JsonValue.num 1)])
      (Json.JsonValue.arr [Json.JsonValue.num 1, Json.JsonValue.num 2]) rfl rfl,
   (C8_extractor_two_directives "Hi ".toList "t1".toList "\n".toList
      "nope".toList " x ".toList " t2 ".toList "".toList
      "[1, 2]".toList " end".toList
      (by decide) (by decide) (by decide) (by decide) (by decide) (by decide)
      (by decide) (by decide) (by decide)).2.1
      (Json.JsonValue.arr [Json.JsonValue.num 1, Json.JsonValue.num 2]) rfl rfl,
   (C8_extractor_two_directives "Hi ".toList "t1".toList "\n".toList
      "\x7b\"a\": 1\x7d".toList " x ".toList " t2 ".toList "".toList
      "nope".toList " end".toList
      (by decide) (by decide) (by decide) (by decide) (by decide) (by decide)
      (by decide) (by decide) (by decide)).2.2.1
      (Json.JsonValue.obj [("a", Json.JsonValue.num 1)]) rfl rfl,
   (C8_extractor_two_directives "Hi ".toList "t1".toList "\n".toList
      "\x7b\"a\": 1\x7d".toList " x ".toList " t2 ".toList "".toList
      "[1, 2]".toList " end".toList
      (by decide) (by decide) (by decide) (by decide) (by decide) (by decide)
      (by decide) (by decide) (by decide)).2.2.2.1
      (Json.JsonValue.obj [("a", Json.JsonValue.num 1)]) rfl,
   (C8_extractor_two_directives "Hi ".toList "t1".toList "\n".toList
      "nope".toList " x ".toList " t2 ".toList "".toList
      "[1, 2]".toList " end".toList
      (by decide) (by decide) (by decide) (by decide) (by decide) (by decide)
      (by decide) (by decide) (by decide)).2.2.2.2 rfl⟩

end Extractor
